import Mathlib

/-!
Verification of the risk-aggregation core of the LinkedIn job-fraud detector
(`backend/app/services/job_analysis_service.py` and the analyzers in
`backend/app/analyzers/`).  Python floats are modelled as exact rationals,
Python ints as `Int`/`Nat`, and fallible branches as explicit `if`s, following
the source line by line.
-/

namespace JobDetector

/-- Risk categories (`RiskCategory` in `app/models/internal.py`). -/
inductive RiskCategory
  | textAnalysis
  | emailValidation
  | urlValidation
  | platformCredibility
  | general
deriving DecidableEq, Repr

/-- One detected risk indicator (`RiskFactor` in `app/models/internal.py`).
`severity` is a pydantic-validated integer 0-100 (modelled as `Nat`, with the
upper bound carried as a hypothesis where needed); `confidence` is a float in
[0,1], modelled as a rational. -/
structure RiskFactor where
  category : RiskCategory
  severity : ℕ
  description : String
  confidence : ℚ
deriving DecidableEq, Repr

/-- Output of one analyzer (`AnalysisResult` in `app/models/internal.py`).
`processing_time_ms` is omitted: no aggregation code reads it. -/
structure AnalysisResult where
  risk_factors : List RiskFactor
  confidence : ℚ
  analyzer_name : String
deriving DecidableEq, Repr

/-- The dictionary built by `JobAnalysisService._run_all_analyzers`, with its
four fixed keys 'text', 'email', 'url', 'platform' (in insertion order). -/
structure AllResults where
  text : AnalysisResult
  email : AnalysisResult
  url : AnalysisResult
  platform : AnalysisResult
deriving DecidableEq, Repr

/-- `JobAnalysisRequest` (`app/models/request.py`).  The optional fields
`company_url` and `recruiter_email` (`Optional[str]`, `None` when absent) are
modelled as strings with `""` for `None`: every consumer only tests their
truthiness and `strip()`, for which `None` and `""` behave identically. -/
structure JobAnalysisRequest where
  job_text : String
  recruiter_email : String
  company_url : String
  platform_source : String
deriving DecidableEq, Repr

/-- `p` is a prefix of the second list (plain `List Char` matcher used to model
Python substring tests). -/
def leadsWith : List Char → List Char → Bool
  | [], _ => true
  | _ :: _, [] => false
  | a :: p, b :: l => a == b && leadsWith p l

/-- `pat` occurs as a contiguous segment of the list. -/
def hasSegment (pat : List Char) : List Char → Bool
  | [] => pat.isEmpty
  | a :: t => leadsWith pat (a :: t) || hasSegment pat t

/-- Python's `pat in hay` on strings. -/
def strContains (hay pat : String) : Bool := hasSegment pat.toList hay.toList

/-- Python's `str.strip()` on the character list: drop leading and trailing
whitespace. -/
def pyStripList (l : List Char) : List Char :=
  ((l.dropWhile Char.isWhitespace).reverse.dropWhile Char.isWhitespace).reverse

/-- Python's `str.strip()`. -/
def pyStrip (s : String) : String := String.mk (pyStripList s.toList)

/-- Python's `str.lower()` (ASCII case folding, which covers every string the
source compares). -/
def pyLower (s : String) : String := String.mk (s.toList.map Char.toLower)

/-- Accumulator pass of `str.split()`: `cur` holds the current word reversed. -/
def wordsAux : List Char → List Char → List (List Char)
  | [], cur => if cur.isEmpty then [] else [cur.reverse]
  | c :: rest, cur =>
    if c.isWhitespace then
      if cur.isEmpty then wordsAux rest [] else cur.reverse :: wordsAux rest []
    else wordsAux rest (c :: cur)

/-- Python's `str.split()` with no argument: split on whitespace runs,
discarding empty pieces. -/
def pyWords (s : String) : List String :=
  (wordsAux s.toList []).map String.mk

/-- Python's `max` over a list of numbers (only ever applied to nonempty
lists in the source; `0` for `[]` keeps the function total). -/
def pyMax : List ℚ → ℚ
  | [] => 0
  | x :: xs => xs.foldl max x

/-- Python 3's `round` on a real value: round half to even. -/
def pyRound (q : ℚ) : ℤ :=
  let f := ⌊q⌋
  let r := q - f
  if r < 1 / 2 then f
  else if 1 / 2 < r then f + 1
  else if Even f then f else f + 1

/-- The sort key `factor.severity * factor.confidence` used throughout
`job_analysis_service.py`. -/
def keyOf (f : RiskFactor) : ℚ := (f.severity : ℚ) * f.confidence

/-- Ordering relation for Python's `sort(key=lambda f: f.severity * f.confidence,
reverse=True)`: descending by key. -/
def byKeyDesc (f g : RiskFactor) : Prop := keyOf g ≤ keyOf f

instance : DecidableRel byKeyDesc := fun f g =>
  inferInstanceAs (Decidable (keyOf g ≤ keyOf f))

instance : IsTotal RiskFactor byKeyDesc := ⟨fun a b => le_total (keyOf b) (keyOf a)⟩

instance : IsTrans RiskFactor byKeyDesc := ⟨fun _ _ _ h1 h2 => le_trans h2 h1⟩

/-- Python's stable descending sort by `severity * confidence` (the lists the
service sorts are small; insertion sort has the same stable semantics). -/
def sortDesc (fs : List RiskFactor) : List RiskFactor := List.insertionSort byKeyDesc fs

/-- `sum(factor.severity * factor.confidence for factor in fs)`. -/
def sumKey (fs : List RiskFactor) : ℚ := (fs.map keyOf).sum

/-- `sum(factor.confidence for factor in fs)`. -/
def sumConf (fs : List RiskFactor) : ℚ := (fs.map (·.confidence)).sum

/-- Per-category score and confidence, from
`JobAnalysisService._calculate_overall_risk_score_with_confidence`
(service lines 118-151): the text-analysis top-3 rule when more than 5
findings, otherwise the confidence-weighted average with guarded division. -/
def categoryScoreConf (cat : RiskCategory) (fs : List RiskFactor) : ℚ × ℚ :=
  if fs.isEmpty then (0, 0)
  else if cat = RiskCategory.textAnalysis ∧ 5 < fs.length then
    let top := (sortDesc fs).take 3
    (pyMax (top.map keyOf), pyMax (top.map (·.confidence)))
  else
    if 0 < sumConf fs then (sumKey fs / sumConf fs, min 1 (sumConf fs / (fs.length : ℚ)))
    else (0, 0)

/-- All risk factors pooled across the four analyzer results, in the dict's
iteration order text, email, url, platform. -/
def allFactors (r : AllResults) : List RiskFactor :=
  r.text.risk_factors ++ r.email.risk_factors ++ r.url.risk_factors ++ r.platform.risk_factors

/-- `[f for f in all_risk_factors if f.category == category]`. -/
def catFactors (r : AllResults) (cat : RiskCategory) : List RiskFactor :=
  (allFactors r).filter (fun f => f.category = cat)

/-- `self.category_weights` (service lines 25-30), in insertion order. -/
def categoryWeights : List (RiskCategory × ℚ) :=
  [(RiskCategory.textAnalysis, 70 / 100), (RiskCategory.emailValidation, 12 / 100),
   (RiskCategory.urlValidation, 10 / 100), (RiskCategory.platformCredibility, 8 / 100)]

def catScore (r : AllResults) (cat : RiskCategory) : ℚ :=
  (categoryScoreConf cat (catFactors r cat)).1

def catConf (r : AllResults) (cat : RiskCategory) : ℚ :=
  (categoryScoreConf cat (catFactors r cat)).2

/-- `weighted_score` accumulated over `self.category_weights.items()`
(service lines 153-162): each term is `category_score * (weight * confidence)`. -/
def weightedScoreSum (r : AllResults) : ℚ :=
  (categoryWeights.map (fun cw => catScore r cw.1 * (cw.2 * catConf r cw.1))).sum

/-- `total_weight` accumulated over the same loop. -/
def totalWeight (r : AllResults) : ℚ :=
  (categoryWeights.map (fun cw => cw.2 * catConf r cw.1)).sum

/-- `base_score` after the guarded normalisation (service lines 164-168). -/
def baseScoreRaw (r : AllResults) : ℚ :=
  if 0 < totalWeight r then weightedScoreSum r / totalWeight r else 0

/-- `structure_indicators` (service lines 205-211). -/
def structureIndicators : List String :=
  ["responsibilities:", "requirements:", "qualifications:",
   "about the role:", "job description:", "duties include:",
   "we are looking for:", "the ideal candidate:", "about us:",
   "what you'll do:", "what we offer:", "benefits:", "perks:",
   "key responsibilities:", "required skills:", "preferred qualifications:"]

/-- `professional_terms` (service lines 222-229). -/
def professionalTerms : List String :=
  ["bachelor's degree", "master's degree", "years of experience",
   "proven track record", "strong communication skills", "team player",
   "competitive salary", "benefits package", "equal opportunity employer",
   "professional development", "career growth", "health insurance",
   "401k", "pto", "paid time off", "work-life balance", "remote work",
   "hybrid work", "flexible schedule", "mentorship", "training"]

/-- `technical_skills` (service lines 240-246). -/
def technicalSkills : List String :=
  ["python", "java", "javascript", "sql", "aws", "docker", "kubernetes",
   "react", "angular", "node.js", "git", "agile", "scrum", "devops",
   "machine learning", "data analysis", "project management", "html",
   "css", "typescript", "mongodb", "postgresql", "redis", "api",
   "microservices", "ci/cd", "jenkins", "terraform", "ansible"]

/-- `sum(1 for indicator in pats if indicator in text_lower)`. -/
def countMatches (textLower : String) (pats : List String) : ℕ :=
  (pats.filter (fun p => strContains textLower p)).length

/-- The `structure_count` tier of `_calculate_professional_bonus`
(service lines 213-219): +10 for ≥3 matches, +7 for 2, +4 for 1. -/
def structureBonus (textLower : String) : ℚ :=
  if 3 ≤ countMatches textLower structureIndicators then 10
  else if 2 ≤ countMatches textLower structureIndicators then 7
  else if 1 ≤ countMatches textLower structureIndicators then 4 else 0

/-- The `professional_count` tier (service lines 231-237): +8 for ≥5, +5 for
3-4, +2 for 1-2. -/
def professionalTermsBonus (textLower : String) : ℚ :=
  if 5 ≤ countMatches textLower professionalTerms then 8
  else if 3 ≤ countMatches textLower professionalTerms then 5
  else if 1 ≤ countMatches textLower professionalTerms then 2 else 0

/-- The `technical_count` tier (service lines 248-254): +7 for ≥4, +4 for 2-3,
+2 for 1. -/
def technicalBonus (textLower : String) : ℚ :=
  if 4 ≤ countMatches textLower technicalSkills then 7
  else if 2 ≤ countMatches textLower technicalSkills then 4
  else if 1 ≤ countMatches textLower technicalSkills then 2 else 0

/-- The `word_count` tier (service lines 257-263): +5 for ≥200 words, +3 for
≥100, +1 for ≥50. -/
def lengthBonus (job_text : String) : ℚ :=
  if 200 ≤ (pyWords job_text).length then 5
  else if 100 ≤ (pyWords job_text).length then 3
  else if 50 ≤ (pyWords job_text).length then 1 else 0

/-- `JobAnalysisService._calculate_professional_bonus` (service lines 188-265):
the four tier bonuses accumulated into `bonus`, then `min(25, bonus)`; empty
text short-circuits to 0. -/
def professionalBonus (job_text : String) : ℚ :=
  if job_text = "" then 0
  else min 25 (structureBonus (pyLower job_text) + professionalTermsBonus (pyLower job_text) +
    technicalBonus (pyLower job_text) + lengthBonus job_text)

/-- One step of the `for factor in platform_result.risk_factors` loop of
`JobAnalysisService._get_platform_risk_multiplier` (service lines 323-331):
an if/elif chain over the lowercased description. -/
def phraseStep (m : ℚ) (f : RiskFactor) : ℚ :=
  let d := pyLower f.description
  if strContains d "high fraud" then max m (14 / 10)
  else if strContains d "messaging apps" then max m (13 / 10)
  else if strContains d "social media" then max m (12 / 10)
  else if strContains d "lower credibility" then max m (11 / 10)
  else m

/-- `JobAnalysisService._get_platform_risk_multiplier` (service lines 307-333). -/
def platformMultiplier (pr : AnalysisResult) : ℚ :=
  if pr.risk_factors.isEmpty then 1
  else pr.risk_factors.foldl phraseStep 1

/-- The numeric half of
`JobAnalysisService._calculate_overall_risk_score_with_confidence`
(service lines 98-186): category scoring, confidence-weighted blend,
professionalism offset (floored at 0), platform multiplier, then
`max(0, min(100, int(round(adjusted_score))))`.  The text result is always
present, so the bonus branch always runs. -/
def riskScore (r : AllResults) (job_text : String) : ℤ :=
  let base := baseScoreRaw r
  let base2 := max 0 (base - professionalBonus job_text)
  let adjusted := base2 * platformMultiplier r.platform
  max 0 (min 100 (pyRound adjusted))

/-- `metadata_completeness` (service lines 279-283): fraction of
{email, url, platform} that are truthy after `strip()`. -/
def metadataCompleteness (req : JobAnalysisRequest) : ℚ :=
  (((if pyStrip req.recruiter_email ≠ "" then 1 else 0) +
    (if pyStrip req.company_url ≠ "" then 1 else 0) +
    (if pyStrip req.platform_source ≠ "" then 1 else 0) : ℚ)) / 3

/-- `high_risk_text` (service line 294). -/
def highRiskText (r : AllResults) : Bool :=
  r.text.risk_factors.any (fun f => 70 ≤ f.severity)

/-- `high_risk_metadata` (service line 295): over email then url findings. -/
def highRiskMetadata (r : AllResults) : Bool :=
  (r.email.risk_factors ++ r.url.risk_factors).any (fun f => 70 ≤ f.severity)

/-- `JobAnalysisService._calculate_confidence_level` (service lines 267-305).
The nested `if` that returns "High" falls through to the "Medium" test when
its inner consistency check fails, which flattens to one conjunction. -/
def confidenceLevel (r : AllResults) (req : JobAnalysisRequest) : String :=
  let completeness := metadataCompleteness req
  let textConfidence := r.text.confidence
  if 67 / 100 ≤ completeness ∧ 8 / 10 ≤ textConfidence ∧
     ¬(highRiskText r = true ∧ ¬highRiskMetadata r = true) ∧
     ¬(highRiskMetadata r = true ∧ ¬highRiskText r = true) then "High"
  else if 7 / 10 ≤ textConfidence ∧ 50 ≤ (pyWords req.job_text).length then "Medium"
  else "Low"

/-- `VerdictEnum` (`app/models/response.py`). -/
inductive Verdict
  | safe
  | caution
  | highRisk
deriving DecidableEq, Repr

/-- `JobAnalysisService._determine_verdict` (service lines 335-350), with
`self.verdict_thresholds = {'safe': 30, 'caution': 65, 'high_risk': 100}`. -/
def determineVerdict (risk_score : ℤ) : Verdict :=
  if risk_score ≤ 30 then Verdict.safe
  else if risk_score ≤ 65 then Verdict.caution
  else Verdict.highRisk

/-- The flag-collection loop of `JobAnalysisService._generate_flags`
(service lines 377-390): walk the sorted factors, keep the first occurrence of
each description, stop once 8 flags are collected.  The `seen_descriptions`
set always holds exactly the members of the accumulator, so membership in the
accumulator models it. -/
def flagsLoop : List RiskFactor → List String → List String
  | [], flags => flags
  | f :: rest, flags =>
    if f.description ∈ flags then flagsLoop rest flags
    else if 8 ≤ (flags ++ [f.description]).length then flags ++ [f.description]
    else flagsLoop rest (flags ++ [f.description])

/-- `JobAnalysisService._generate_flags` (service lines 352-390). -/
def generateFlags (r : AllResults) : List String :=
  flagsLoop (sortDesc (allFactors r)) []

/-- `PlatformAnalyzer.all_platforms` (`app/analyzers/platform_analyzer.py`
lines 14-70): the three credibility tiers flattened in insertion order. -/
def allPlatforms : List (String × ℕ) :=
  [("linkedin.com", 95), ("indeed.com", 90), ("glassdoor.com", 92), ("monster.com", 88),
   ("careerbuilder.com", 87), ("ziprecruiter.com", 85), ("dice.com", 90),
   ("stackoverflow.com", 93), ("github.com", 92), ("angel.co", 88), ("wellfound.com", 88),
   ("craigslist.org", 70), ("facebook.com", 75), ("twitter.com", 72), ("reddit.com", 73),
   ("upwork.com", 78), ("freelancer.com", 76), ("fiverr.com", 74), ("flexjobs.com", 82),
   ("remote.co", 80), ("weworkremotely.com", 81), ("remoteok.io", 79), ("joblist.com", 75),
   ("xing.com", 77), ("seek.com", 78), ("chrome", 85), ("firefox", 85), ("safari", 85),
   ("edge", 85),
   ("telegram.org", 55), ("whatsapp.com", 50), ("instagram.com", 60), ("tiktok.com", 45),
   ("snapchat.com", 40), ("discord.com", 58), ("slack.com", 65), ("email", 60),
   ("sms", 45), ("phone", 55)]

/-- `self.all_platforms.get(s)`. -/
def lookupCred (s : String) : Option ℕ :=
  (allPlatforms.find? (fun p => p.1 = s)).map (fun p => p.2)

/-- Characters accepted by `[^/\s]+` in the domain-extraction regex. -/
def domChar (c : Char) : Bool := c ≠ '/' && !c.isWhitespace

/-- One match attempt of `(?:https?://)?(?:www\.)?([^/\s]+)` at a fixed
position, for one concrete choice of the two optional prefixes (`a`, `b`):
both must be literal prefixes and the captured `[^/\s]+` part nonempty. -/
def comboTry (a b : String) (t : List Char) : Option (List Char) :=
  if leadsWith a.toList t then
    let u := t.drop a.toList.length
    if leadsWith b.toList u then
      let v := (u.drop b.toList.length).takeWhile domChar
      if v.isEmpty then none else some v
    else none
  else none

/-- Backtracking order of the regex engine at one position: the greedy
alternatives `https://` before `http://` before no scheme, each with
`www.` before no `www.`. -/
def matchAt (t : List Char) : Option (List Char) :=
  (comboTry "https://" "www." t).orElse fun _ =>
  (comboTry "https://" "" t).orElse fun _ =>
  (comboTry "http://" "www." t).orElse fun _ =>
  (comboTry "http://" "" t).orElse fun _ =>
  (comboTry "" "www." t).orElse fun _ =>
  comboTry "" "" t

/-- `re.search(r'(?:https?://)?(?:www\.)?([^/\s]+)', platform)`: leftmost
match, returning capture group 1. -/
def searchDomain : List Char → Option (List Char)
  | [] => none
  | a :: t => (matchAt (a :: t)).orElse fun _ => searchDomain t

/-- The 16 entries of `PlatformAnalyzer.platform_patterns` (lines 121-138) in
insertion order, as literal-alternation matchers, paired with the platform
name each maps back to via `pattern_to_platform` (lines 210-227).
`re.IGNORECASE` is modelled by matching on the lowercased input `s`. -/
def platformPatternTable : List ((String → Bool) × String) :=
  [(fun s => strContains s "linkedin.com" || strContains s "linkedin", "linkedin.com"),
   (fun s => strContains s "indeed.com" || strContains s "indeed", "indeed.com"),
   (fun s => strContains s "glassdoor.com" || strContains s "glassdoor", "glassdoor.com"),
   (fun s => strContains s "monster.com" || strContains s "monster", "monster.com"),
   (fun s => strContains s "craigslist.org" || strContains s "craigslist", "craigslist.org"),
   (fun s => strContains s "facebook.com" || strContains s "facebook" || strContains s "fb.com",
     "facebook.com"),
   (fun s => strContains s "twitter.com" || strContains s "twitter" || strContains s "x.com",
     "twitter.com"),
   (fun s => strContains s "telegram.org" || strContains s "telegram" || strContains s "t.me",
     "telegram.org"),
   (fun s => strContains s "whatsapp.com" || strContains s "whatsapp", "whatsapp.com"),
   (fun s => s = "email" || s = "e-mail" || strContains s "email contact" ||
     strContains s "direct email", "email"),
   (fun s => s = "sms" || s = "text" || strContains s "text message" ||
     strContains s "phone text", "sms"),
   (fun s => s = "phone" || strContains s "phone call" || strContains s "telephone" ||
     strContains s "direct call", "phone"),
   (fun s => s = "chrome" || strContains s "chrome extension" ||
     strContains s "browser extension", "chrome"),
   (fun s => s = "firefox" || strContains s "firefox extension", "firefox"),
   (fun s => s = "safari" || strContains s "safari extension", "safari"),
   (fun s => s = "edge" || strContains s "edge extension", "edge")]

/-- First pattern of `platform_patterns` matching the (lowercased) input,
mapped through `pattern_to_platform`. -/
def patternNormalize (platform : String) : Option String :=
  ((platformPatternTable.find? (fun pt => pt.1 (pyLower platform))).map (fun pt => pt.2))

/-- `any(pattern.search(s) for pattern in self.platform_patterns.values())`. -/
def anyPatternMatch (s : String) : Bool :=
  platformPatternTable.any (fun pt => pt.1 (pyLower s))

/-- `PlatformAnalyzer._normalize_platform_name` (lines 191-230). -/
def normalizePlatform (platform : String) : String :=
  if (lookupCred platform).isSome then platform
  else
    let extracted : Option String :=
      if strContains platform "." &&
         (strContains platform "http" || strContains platform "www") then
        (searchDomain platform.toList).map (fun l => pyLower (String.mk l))
      else none
    match extracted with
    | some d =>
      if (lookupCred d).isSome then d
      else match patternNormalize platform with
        | some p => p
        | none => pyLower platform
    | none =>
      match patternNormalize platform with
      | some p => p
      | none => pyLower platform

/-- `PlatformAnalyzer._get_platform_credibility` (lines 232-279): the optional
risk factor it appends alongside the credibility score it returns. -/
def credFactors (np : String) : List RiskFactor :=
  match lookupCred np with
  | none =>
    [⟨RiskCategory.platformCredibility, 60, "Platform is not recognized or well-known", 7 / 10⟩]
  | some c =>
    if c < 50 then
      [⟨RiskCategory.platformCredibility, 80, "Platform is known for high fraud rates", 9 / 10⟩]
    else if c < 70 then
      [⟨RiskCategory.platformCredibility, 50, "Platform has lower credibility rating", 8 / 10⟩]
    else if c < 85 then
      [⟨RiskCategory.platformCredibility, 25, "Platform has moderate credibility rating", 6 / 10⟩]
    else []

/-- `PlatformAnalyzer._check_platform_risk_patterns` (lines 281-296), iterating
`platform_risk_patterns` in insertion order; each severity is
`min(100, int(40 * risk_multiplier))`, i.e. 52, 60, 48, 44. -/
def riskPatternFactors (np : String) : List RiskFactor :=
  (if np ∈ ["facebook.com", "twitter.com", "instagram.com", "tiktok.com", "snapchat.com"] then
    [⟨RiskCategory.platformCredibility, 52, "Social media platforms have higher fraud risk", 8 / 10⟩]
   else []) ++
  (if np ∈ ["telegram.org", "whatsapp.com", "discord.com"] then
    [⟨RiskCategory.platformCredibility, 60, "Messaging apps are commonly used for scams", 8 / 10⟩]
   else []) ++
  (if np ∈ ["email", "sms", "phone"] then
    [⟨RiskCategory.platformCredibility, 48, "Direct contact methods lack platform verification", 8 / 10⟩]
   else []) ++
  (if np ∈ ["upwork.com", "freelancer.com", "fiverr.com"] then
    [⟨RiskCategory.platformCredibility, 44, "Freelance platforms may have less employer verification", 8 / 10⟩]
   else [])

/-- `PlatformAnalyzer._check_suspicious_indicators` (lines 298-346). -/
def suspiciousIndicatorFactors (np platform : String) : List RiskFactor :=
  (if np ∈ ["telegram", "whatsapp", "discord", "sms"] then
    [⟨RiskCategory.platformCredibility, 70, "Contact only through messaging apps (red flag)", 8 / 10⟩]
   else []) ++
  (if np ∈ ["facebook", "twitter", "instagram", "tiktok", "snapchat"] then
    [⟨RiskCategory.platformCredibility, 65, "Job posting only on social media platforms", 7 / 10⟩]
   else []) ++
  (if np ∈ ["email", "sms", "phone", "craigslist"] then
    [⟨RiskCategory.platformCredibility, 55, "Platform lacks employer verification processes", 6 / 10⟩]
   else []) ++
  (if (["website", "online", "internet", "web", "site"].any
        (fun pat => strContains (pyLower platform) pat)) &&
      (pyWords platform).length ≤ 2 then
    [⟨RiskCategory.platformCredibility, 45, "Platform description is vague or non-specific", 6 / 10⟩]
   else [])

/-- `PlatformAnalyzer._apply_platform_risk_adjustments` (lines 348-374),
applied to the factors accumulated so far. -/
def adjustmentFactors (np : String) (acc : List RiskFactor) : List RiskFactor :=
  if np ∈ ["telegram", "whatsapp", "tiktok", "snapchat"] &&
     !(acc.any (fun f => 70 ≤ f.severity && strContains (pyLower f.description) "high fraud")) then
    [⟨RiskCategory.platformCredibility, 75, "Platform is associated with higher fraud rates", 8 / 10⟩]
  else []

/-- `PlatformAnalyzer._calculate_confidence` (lines 410-426). -/
def platformCalcConfidence (np : String) (riskFactorCount : ℕ) : ℚ :=
  min 1 ((8 / 10) +
    (if (lookupCred np).isSome then 1 / 10 else 0) +
    (if 0 < riskFactorCount then min (1 / 10) ((riskFactorCount : ℚ) * (2 / 100)) else 0) +
    (if anyPatternMatch np then 5 / 100 else 0))

/-- `PlatformAnalyzer.analyze` (lines 140-189). -/
def platformAnalyze (platform_source : String) : AnalysisResult :=
  if platform_source = "" ∨ pyStrip platform_source = "" then
    ⟨[⟨RiskCategory.platformCredibility, 100, "Platform source is empty or missing", 1⟩],
     1, "PlatformAnalyzer"⟩
  else
    let platform := pyLower (pyStrip platform_source)
    let np := normalizePlatform platform
    let f1 := credFactors np
    let f2 := riskPatternFactors np
    let f3 := suspiciousIndicatorFactors np platform
    let acc := f1 ++ f2 ++ f3
    let fs := acc ++ adjustmentFactors np acc
    ⟨fs, platformCalcConfidence np fs.length, "PlatformAnalyzer"⟩

/-- `TextAnalyzer._calculate_confidence` (`app/analyzers/text_analyzer.py`
lines 275-290). -/
def textCalcConfidence (job_text : String) (riskFactorCount : ℕ) : ℚ :=
  min 1 ((7 / 10) +
    (if 50 < (pyWords job_text).length then 1 / 10 else 0) +
    (if 100 < (pyWords job_text).length then 1 / 10 else 0) +
    (if 0 < riskFactorCount then min (2 / 10) ((riskFactorCount : ℚ) * (5 / 100)) else 0))

/-- `TextAnalyzer.analyze` (text analyzer lines 79-125).  The keyword,
pattern and content-quality checks that produce the risk-factor list are
abstracted as the parameter `find` (they do not affect the claims settled
here); the empty-input branch and the confidence computation are embedded
exactly. -/
def textAnalyze (find : String → List RiskFactor) (job_text : String) : AnalysisResult :=
  if job_text = "" ∨ pyStrip job_text = "" then
    ⟨[⟨RiskCategory.textAnalysis, 100, "Job text is empty or missing", 1⟩], 1, "TextAnalyzer"⟩
  else
    ⟨find job_text, textCalcConfidence job_text (find job_text).length, "TextAnalyzer"⟩

/-- `EmailAnalyzer.analyze` (`app/analyzers/email_analyzer.py` lines 55-103).
Everything after the empty-input guard (format validation and the suspicious
pattern checks) is abstracted as `rest`; the guard and its neutral result are
embedded exactly. -/
def emailAnalyze (rest : String → AnalysisResult) (recruiter_email : String) : AnalysisResult :=
  if recruiter_email = "" ∨ pyStrip recruiter_email = "" then
    ⟨[], 1, "EmailAnalyzer"⟩
  else rest recruiter_email

/-- `URLAnalyzer.analyze` (`app/analyzers/url_analyzer.py` lines 56-104), with
the same treatment as `emailAnalyze`. -/
def urlAnalyze (rest : String → AnalysisResult) (company_url : String) : AnalysisResult :=
  if company_url = "" ∨ pyStrip company_url = "" then
    ⟨[], 1, "URLAnalyzer"⟩
  else rest company_url

/-- Spec-side reading of the platform multiplier: the phrase factors that
apply to one finding's (lowercased) description. -/
def applicableFactors (f : RiskFactor) : List ℚ :=
  (if strContains (pyLower f.description) "high fraud" then [14 / 10] else []) ++
  (if strContains (pyLower f.description) "messaging apps" then [13 / 10] else []) ++
  (if strContains (pyLower f.description) "social media" then [12 / 10] else []) ++
  (if strContains (pyLower f.description) "lower credibility" then [11 / 10] else [])

/-- Invariant envelope of a metadata-category (email or url) `(score,
confidence)` pair as produced by `categoryScoreConf`, for base weight `w`.
Every output the email/url analyzers can actually produce satisfies it: the
pair is `(0, 0)` when there are no findings (or only zero-confidence ones),
and otherwise all those analyzers' findings have severity in [40, 90] and
confidence in [0.6, 1], with the high-severity findings carrying enough
confidence that `w·conf·(0.3·score − 7.5) ≥ 0.064·score − 4.096` whenever the
score exceeds 55 (the extreme reachable point being a lone severity-90,
confidence-0.9 finding at weight 0.1). -/
def metadataEnvelope (w : ℚ) (p : ℚ × ℚ) : Prop :=
  (p.1 = 0 ∧ p.2 = 0) ∨
  (25 ≤ p.1 ∧ p.1 ≤ 90 ∧ 0 ≤ p.2 ∧ p.2 ≤ 1 ∧
    (55 < p.1 → 8 / 125 * p.1 - 512 / 125 ≤ w * p.2 * (3 / 10 * p.1 - 15 / 2)))

/-- A valid request with exactly two of the three metadata fields non-empty
(`company_url` absent): metadata completeness 2/3. -/
def twoFieldReq : JobAnalysisRequest :=
  ⟨"Looking for a data entry clerk.", "hr@example.com", "", "chrome"⟩

/-- Analyzer results with text confidence exactly 0.8 and no findings at all
(hence no contradictory signals). -/
def twoFieldResults : AllResults :=
  ⟨⟨[], 8 / 10, "TextAnalyzer"⟩, ⟨[], 1, "EmailAnalyzer"⟩, ⟨[], 1, "URLAnalyzer"⟩,
   ⟨[], 95 / 100, "PlatformAnalyzer"⟩⟩

/-! ### General lemmas -/

theorem foldl_max_of_le {xs : List ℚ} {a : ℚ} (h : ∀ x ∈ xs, x ≤ a) : xs.foldl max a = a := by
  induction xs with
  | nil => rfl
  | cons x xs ih =>
    rw [List.foldl_cons, max_eq_left (h x (List.mem_cons_self x xs))]
    exact ih fun y hy => h y (List.mem_cons_of_mem x hy)

theorem pyMax_cons_of_le {a : ℚ} {xs : List ℚ} (h : ∀ x ∈ xs, x ≤ a) : pyMax (a :: xs) = a :=
  foldl_max_of_le h

theorem pyMax_of_all_zero {l : List ℚ} (h : ∀ x ∈ l, x = 0) : pyMax l = 0 := by
  cases l with
  | nil => rfl
  | cons x xs =>
    rw [show pyMax (x :: xs) = xs.foldl max x from rfl, h x (List.mem_cons_self x xs)]
    exact foldl_max_of_le fun y hy => le_of_eq (h y (List.mem_cons_of_mem x hy))

theorem foldr_max_swap (xs : List ℚ) (a b : ℚ) :
    xs.foldr max (max a b) = max a (xs.foldr max b) := by
  induction xs with
  | nil => rfl
  | cons x xs ih => rw [List.foldr_cons, List.foldr_cons, ih, max_left_comm]

theorem foldr_max_comm (xs ys : List ℚ) (m : ℚ) :
    xs.foldr max (ys.foldr max m) = ys.foldr max (xs.foldr max m) := by
  induction xs with
  | nil => rfl
  | cons x xs ih => rw [List.foldr_cons, ih, List.foldr_cons, ← foldr_max_swap]

theorem le_foldr_max (xs : List ℚ) (m : ℚ) : m ≤ xs.foldr max m := by
  induction xs with
  | nil => exact le_refl m
  | cons x xs ih => exact le_trans ih (le_max_right x _)

theorem foldr_max_le {xs : List ℚ} {m b : ℚ} (hm : m ≤ b) (hx : ∀ x ∈ xs, x ≤ b) :
    xs.foldr max m ≤ b := by
  induction xs with
  | nil => exact hm
  | cons x xs ih =>
    exact max_le (hx x (List.mem_cons_self x xs))
      (ih fun y hy => hx y (List.mem_cons_of_mem x hy))

/-- When the head dominates the tail, folding `max` gives `max m head`. -/
theorem foldr_max_dominant {a m : ℚ} {rest : List ℚ} (h : ∀ x ∈ rest, x ≤ a) :
    (a :: rest).foldr max m = max m a := by
  rw [List.foldr_cons]
  apply le_antisymm
  · refine max_le (le_max_right m a) (foldr_max_le (le_max_left m a) ?_)
    intro x hx
    exact le_trans (h x hx) (le_max_right m a)
  · exact max_le (le_trans (le_foldr_max rest m) (le_max_right a _)) (le_max_left a _)

/-- `pyRound` is monotone, which transports score inequalities through the
final integer rounding. -/
theorem pyRound_mono {a b : ℚ} (h : a ≤ b) : pyRound a ≤ pyRound b := by
  show (if a - (⌊a⌋ : ℚ) < 1 / 2 then ⌊a⌋
      else if 1 / 2 < a - (⌊a⌋ : ℚ) then ⌊a⌋ + 1
      else if Even ⌊a⌋ then ⌊a⌋ else ⌊a⌋ + 1) ≤
    (if b - (⌊b⌋ : ℚ) < 1 / 2 then ⌊b⌋
      else if 1 / 2 < b - (⌊b⌋ : ℚ) then ⌊b⌋ + 1
      else if Even ⌊b⌋ then ⌊b⌋ else ⌊b⌋ + 1)
  have hf : ⌊a⌋ ≤ ⌊b⌋ := Int.floor_le_floor h
  rcases eq_or_lt_of_le hf with heq | hlt
  · have hr : a - (⌊a⌋ : ℚ) ≤ b - (⌊b⌋ : ℚ) := by
      rw [← heq]
      exact sub_le_sub_right h _
    rw [← heq]
    rw [← heq] at hr
    split_ifs <;> first | omega | (exfalso; linarith)
  · split_ifs <;> omega

theorem professionalBonus_range (t : String) :
    0 ≤ professionalBonus t ∧ professionalBonus t ≤ 25 := by
  unfold professionalBonus
  split_ifs with ht
  · norm_num
  · constructor
    · apply le_min (by norm_num)
      have h1 : (0 : ℚ) ≤ structureBonus (pyLower t) := by
        unfold structureBonus; split_ifs <;> norm_num
      have h2 : (0 : ℚ) ≤ professionalTermsBonus (pyLower t) := by
        unfold professionalTermsBonus; split_ifs <;> norm_num
      have h3 : (0 : ℚ) ≤ technicalBonus (pyLower t) := by
        unfold technicalBonus; split_ifs <;> norm_num
      have h4 : (0 : ℚ) ≤ lengthBonus t := by
        unfold lengthBonus; split_ifs <;> norm_num
      linarith
    · exact min_le_left _ _

theorem phraseStep_eq (m : ℚ) (f : RiskFactor) :
    phraseStep m f = (applicableFactors f).foldr max m := by
  unfold phraseStep applicableFactors
  cases h1 : strContains (pyLower f.description) "high fraud" <;>
    cases h2 : strContains (pyLower f.description) "messaging apps" <;>
      cases h3 : strContains (pyLower f.description) "social media" <;>
        cases h4 : strContains (pyLower f.description) "lower credibility" <;>
          simp only [h1, h2, h3, h4, Bool.false_eq_true, if_true, if_false,
            List.nil_append, List.append_nil, List.cons_append, List.singleton_append,
            List.foldr_nil, ite_true, ite_false] <;>
          first
            | rfl
            | rw [foldr_max_dominant (by intro x hx; fin_cases hx <;> norm_num)]

theorem phrase_foldl (fs : List RiskFactor) (m : ℚ) :
    fs.foldl phraseStep m = ((fs.map applicableFactors).flatten).foldr max m := by
  induction fs generalizing m with
  | nil => rfl
  | cons f fs ih =>
    rw [List.foldl_cons, ih, phraseStep_eq, List.map_cons, List.flatten_cons,
      List.foldr_append]
    exact foldr_max_comm _ _ _

/-! ### Claim theorems -/

/-- Claim C2: for every well-formed set of category results the aggregator's
score computation is total: the final risk score is an integer clamped to
[0, 100], a category with no findings (or zero total confidence) scores
`(0, 0)` instead of dividing, and a zero total effective weight yields base
score 0. -/
theorem aggregator_score_total_and_bounded (r : AllResults) (req : JobAnalysisRequest)
    (hwf : ∀ f ∈ allFactors r, f.severity ≤ 100 ∧ 0 ≤ f.confidence ∧ f.confidence ≤ 1) :
    (0 ≤ riskScore r req.job_text ∧ riskScore r req.job_text ≤ 100) ∧
    (∀ cat : RiskCategory, categoryScoreConf cat [] = (0, 0)) ∧
    (∀ cat fs, (∀ f ∈ fs, f.confidence = 0) → categoryScoreConf cat fs = (0, 0)) ∧
    (totalWeight r ≤ 0 → baseScoreRaw r = 0) := by
  refine ⟨⟨le_max_left _ _, max_le (by norm_num) (le_trans (min_le_left _ _) le_rfl)⟩,
    fun cat => rfl, ?_, ?_⟩
  · intro cat fs h
    unfold categoryScoreConf
    by_cases hfs : fs.isEmpty
    · rw [if_pos hfs]
    · rw [if_neg hfs]
      by_cases htop : cat = RiskCategory.textAnalysis ∧ 5 < fs.length
      · rw [if_pos htop]
        have hmem : ∀ f ∈ (sortDesc fs).take 3, f ∈ fs := fun f hf =>
          (List.mem_insertionSort byKeyDesc).mp (List.take_subset _ _ hf)
        simp only [Prod.mk.injEq]
        constructor
        · apply pyMax_of_all_zero
          intro x hx
          obtain ⟨f, hf, rfl⟩ := List.mem_map.mp hx
          rw [keyOf, h f (hmem f hf), mul_zero]
        · apply pyMax_of_all_zero
          intro x hx
          obtain ⟨f, hf, rfl⟩ := List.mem_map.mp hx
          exact h f (hmem f hf)
      · rw [if_neg htop]
        have hsum : sumConf fs = 0 := by
          apply List.sum_eq_zero
          intro x hx
          obtain ⟨f, hf, rfl⟩ := List.mem_map.mp hx
          exact h f hf
        rw [if_neg (by rw [hsum]; exact lt_irrefl 0)]
  · intro h
    unfold baseScoreRaw
    rw [if_neg (not_lt.mpr h)]

/-- Witness for C2 at a concrete empty result set. -/
theorem aggregator_score_total_and_bounded_check :
    (∀ f ∈ allFactors ⟨⟨[], 1, "t"⟩, ⟨[], 1, "e"⟩, ⟨[], 1, "u"⟩, ⟨[], 1, "p"⟩⟩,
      f.severity ≤ 100 ∧ 0 ≤ f.confidence ∧ f.confidence ≤ 1) ∧
    (0 ≤ riskScore ⟨⟨[], 1, "t"⟩, ⟨[], 1, "e"⟩, ⟨[], 1, "u"⟩, ⟨[], 1, "p"⟩⟩
        (JobAnalysisRequest.mk "hello" "" "" "chrome").job_text ∧
      riskScore ⟨⟨[], 1, "t"⟩, ⟨[], 1, "e"⟩, ⟨[], 1, "u"⟩, ⟨[], 1, "p"⟩⟩
        (JobAnalysisRequest.mk "hello" "" "" "chrome").job_text ≤ 100) :=
  ⟨by intro f hf; simp [allFactors] at hf,
   (aggregator_score_total_and_bounded _ (JobAnalysisRequest.mk "hello" "" "" "chrome")
     (by intro f hf; simp [allFactors] at hf)).1⟩

/-- Claim C3: the verdict is the fixed-threshold classification of the final
score: Safe iff ≤ 30, Caution iff 31-65, High Risk iff 66-100. -/
theorem verdict_matches_fixed_thresholds (s : ℤ) (h0 : 0 ≤ s) (h100 : s ≤ 100) :
    (determineVerdict s = Verdict.safe ↔ s ≤ 30) ∧
    (determineVerdict s = Verdict.caution ↔ 31 ≤ s ∧ s ≤ 65) ∧
    (determineVerdict s = Verdict.highRisk ↔ 66 ≤ s ∧ s ≤ 100) := by
  unfold determineVerdict
  split_ifs with h1 h2 <;> refine ⟨?_, ?_, ?_⟩ <;> simp <;> omega

/-- Witness for C3 at the boundary scores 30, 31, 65, 66. -/
theorem verdict_matches_fixed_thresholds_check :
    determineVerdict 30 = Verdict.safe ∧ determineVerdict 31 = Verdict.caution ∧
    determineVerdict 65 = Verdict.caution ∧ determineVerdict 66 = Verdict.highRisk :=
  ⟨(verdict_matches_fixed_thresholds 30 (by norm_num) (by norm_num)).1.mpr (by norm_num),
   (verdict_matches_fixed_thresholds 31 (by norm_num) (by norm_num)).2.1.mpr (by norm_num),
   (verdict_matches_fixed_thresholds 65 (by norm_num) (by norm_num)).2.1.mpr (by norm_num),
   (verdict_matches_fixed_thresholds 66 (by norm_num) (by norm_num)).2.2.mpr (by norm_num)⟩

/-- Claim C5: the professionalism offset is the sum of the four tiered
bonuses (structural 1/2/≥3 matches → 4/7/10, professional terms 1/3-4/≥5 →
2/5/8, technical skills 1/2-3/≥4 → 2/4/7, word count ≥50/≥100/≥200 → 1/3/5)
capped at 25; it stays in [0, 25]; and the final score subtracts it from the
base score with a floor at 0 before multiplying by the platform factor. -/
theorem professional_bonus_tiers_and_ordering (t : String) (r : AllResults) :
    professionalBonus t =
      min 25
        ((if 3 ≤ countMatches (pyLower t) structureIndicators then (10 : ℚ)
          else if 2 ≤ countMatches (pyLower t) structureIndicators then 7
          else if 1 ≤ countMatches (pyLower t) structureIndicators then 4 else 0) +
         (if 5 ≤ countMatches (pyLower t) professionalTerms then 8
          else if 3 ≤ countMatches (pyLower t) professionalTerms then 5
          else if 1 ≤ countMatches (pyLower t) professionalTerms then 2 else 0) +
         (if 4 ≤ countMatches (pyLower t) technicalSkills then 7
          else if 2 ≤ countMatches (pyLower t) technicalSkills then 4
          else if 1 ≤ countMatches (pyLower t) technicalSkills then 2 else 0) +
         (if 200 ≤ (pyWords t).length then 5
          else if 100 ≤ (pyWords t).length then 3
          else if 50 ≤ (pyWords t).length then 1 else 0)) ∧
    (0 ≤ professionalBonus t ∧ professionalBonus t ≤ 25) ∧
    riskScore r t =
      max 0 (min 100 (pyRound
        (max 0 (baseScoreRaw r - professionalBonus t) * platformMultiplier r.platform))) := by
  refine ⟨?_, professionalBonus_range t, rfl⟩
  by_cases ht : t = ""
  · subst ht
    rw [show countMatches (pyLower "") structureIndicators = 0 from by decide,
      show countMatches (pyLower "") professionalTerms = 0 from by decide,
      show countMatches (pyLower "") technicalSkills = 0 from by decide,
      show (pyWords "").length = 0 from by decide]
    norm_num [professionalBonus]
  · simp only [professionalBonus, if_neg ht, structureBonus, professionalTermsBonus,
      technicalBonus, lengthBonus]

/-- Claim C6: the platform multiplier is the maximum, over all platform
findings and all phrases applicable to each one's (case-folded) description
("high fraud" → 1.4, "messaging apps" → 1.3, "social media" → 1.2,
"lower credibility" → 1.1), defaulting to 1.0 when nothing applies. -/
theorem platform_multiplier_is_max_phrase_factor (pr : AnalysisResult) :
    platformMultiplier pr = ((pr.risk_factors.map applicableFactors).flatten).foldr max 1 := by
  unfold platformMultiplier
  cases h : pr.risk_factors with
  | nil => rfl
  | cons f fs =>
    rw [if_neg (by simp), phrase_foldl]

/-- Claim C9: empty or whitespace-only email and url inputs produce a
neutral result - no findings, confidence 1.0 - whatever the rest of the
analyzers would do. -/
theorem empty_optional_inputs_are_neutral (restE restU : String → AnalysisResult)
    (e u : String) (he : pyStrip e = "") (hu : pyStrip u = "") :
    emailAnalyze restE e = ⟨[], 1, "EmailAnalyzer"⟩ ∧
    urlAnalyze restU u = ⟨[], 1, "URLAnalyzer"⟩ := by
  unfold emailAnalyze urlAnalyze
  rw [if_pos (Or.inr he), if_pos (Or.inr hu)]
  exact ⟨rfl, rfl⟩

/-- Witness for C9 at whitespace-only and empty inputs. -/
theorem empty_optional_inputs_are_neutral_check :
    (pyStrip "  " = "" ∧ pyStrip "" = "") ∧
    emailAnalyze (fun _ => ⟨[], 0, "x"⟩) "  " = ⟨[], 1, "EmailAnalyzer"⟩ ∧
    urlAnalyze (fun _ => ⟨[], 0, "x"⟩) "" = ⟨[], 1, "URLAnalyzer"⟩ :=
  ⟨⟨by decide, by decide⟩,
   empty_optional_inputs_are_neutral (fun _ => ⟨[], 0, "x"⟩) (fun _ => ⟨[], 0, "x"⟩)
     "  " "" (by decide) (by decide)⟩

/-- Claim C10: the text analyzer's result-level confidence always lies in
[0.7, 1.0], and is exactly 1.0 on empty or whitespace-only input; hence the
aggregator's Medium-tier test `text confidence ≥ 0.7` never fails. -/
theorem text_confidence_in_unit_band (find : String → List RiskFactor) (s : String) :
    (7 / 10 ≤ (textAnalyze find s).confidence ∧ (textAnalyze find s).confidence ≤ 1) ∧
    ((s = "" ∨ pyStrip s = "") → (textAnalyze find s).confidence = 1) := by
  unfold textAnalyze
  by_cases hb : s = "" ∨ pyStrip s = ""
  · rw [if_pos hb]
    exact ⟨⟨by norm_num, le_refl 1⟩, fun _ => rfl⟩
  · rw [if_neg hb]
    refine ⟨?_, fun h => absurd h hb⟩
    show 7 / 10 ≤ textCalcConfidence s (find s).length ∧ textCalcConfidence s (find s).length ≤ 1
    unfold textCalcConfidence
    have h1 : (0 : ℚ) ≤ if 50 < (pyWords s).length then (1 : ℚ) / 10 else 0 := by
      split_ifs <;> norm_num
    have h2 : (0 : ℚ) ≤ if 100 < (pyWords s).length then (1 : ℚ) / 10 else 0 := by
      split_ifs <;> norm_num
    have h3 : (0 : ℚ) ≤ if 0 < (find s).length then
        min ((2 : ℚ) / 10) (((find s).length : ℚ) * (5 / 100)) else 0 := by
      split_ifs with h
      · exact le_min (by norm_num) (by positivity)
      · exact le_refl 0
    exact ⟨le_min (by norm_num) (by linarith), min_le_left _ _⟩

/-- Witness for C10: the implication branch at a blank input and the bounds at
a concrete non-blank input. -/
theorem text_confidence_in_unit_band_check :
    (textAnalyze (fun _ => []) " ").confidence = 1 ∧
    7 / 10 ≤ (textAnalyze (fun _ => []) "hello").confidence :=
  ⟨(text_confidence_in_unit_band (fun _ => []) " ").2 (Or.inr (by decide)),
   (text_confidence_in_unit_band (fun _ => []) "hello").1.1⟩

instance : LeftCommutative (max : ℚ → ℚ → ℚ) := ⟨fun _ _ _ => max_left_comm _ _ _⟩

theorem foldl_max_eq_foldr (xs : List ℚ) (a : ℚ) : xs.foldl max a = xs.foldr max a := by
  induction xs generalizing a with
  | nil => rfl
  | cons x xs ih =>
    rw [List.foldl_cons, ih, List.foldr_cons, max_comm a x, foldr_max_swap]

theorem pyMax_eq_foldr_zero {l : List ℚ} (h : ∀ x ∈ l, 0 ≤ x) :
    pyMax l = l.foldr max 0 := by
  cases l with
  | nil => rfl
  | cons x xs =>
    rw [show pyMax (x :: xs) = xs.foldl max x from rfl, foldl_max_eq_foldr,
      List.foldr_cons, ← max_eq_left (h x (List.mem_cons_self x xs)), foldr_max_swap,
      max_eq_left (h x (List.mem_cons_self x xs))]

theorem pyMax_perm {l₁ l₂ : List ℚ} (p : List.Perm l₁ l₂) (h : ∀ x ∈ l₁, 0 ≤ x) :
    pyMax l₁ = pyMax l₂ := by
  rw [pyMax_eq_foldr_zero h, pyMax_eq_foldr_zero (fun x hx => h x (p.mem_iff.mpr hx)),
    p.foldr_eq]

/-- Claim C1 counterexample: a request with exactly 2 of the 3 metadata fields
present (completeness 2/3), text confidence 0.8 and no contradictory signals
satisfies the claim's High condition, yet the code does not return "High"
(`2/3 < 0.67`, so `metadata_completeness >= 0.67` requires all three fields). -/
theorem high_confidence_two_thirds_counterexample :
    (2 / 3 ≤ metadataCompleteness twoFieldReq ∧
     8 / 10 ≤ twoFieldResults.text.confidence ∧
     ¬(highRiskText twoFieldResults = true ∧ ¬highRiskMetadata twoFieldResults = true) ∧
     ¬(highRiskMetadata twoFieldResults = true ∧ ¬highRiskText twoFieldResults = true)) ∧
    confidenceLevel twoFieldResults twoFieldReq ≠ "High" := by
  have hmc : metadataCompleteness twoFieldReq = 2 / 3 := by
    unfold metadataCompleteness twoFieldReq
    rw [if_pos (by decide), if_neg (by decide), if_pos (by decide)]
    norm_num
  constructor
  · refine ⟨by rw [hmc], by norm_num [twoFieldResults], ?_, ?_⟩
    · simp [highRiskText, twoFieldResults]
    · simp [highRiskMetadata, twoFieldResults]
  · simp only [confidenceLevel]
    split_ifs with hH hM
    · exfalso
      have h67 := hH.1
      rw [hmc] at h67
      norm_num at h67
    · decide
    · decide

/-- Claim C1 amended: High is returned exactly when all three metadata fields
are non-blank (the quantized completeness clears the 0.67 cut only at 3/3),
the text confidence is at least 0.8, and the text-side and metadata-side
severity-70 signals agree. -/
theorem high_confidence_iff_full_metadata (r : AllResults) (req : JobAnalysisRequest) :
    confidenceLevel r req = "High" ↔
      (pyStrip req.recruiter_email ≠ "" ∧ pyStrip req.company_url ≠ "" ∧
       pyStrip req.platform_source ≠ "" ∧ 8 / 10 ≤ r.text.confidence ∧
       (highRiskText r = true ↔ highRiskMetadata r = true)) := by
  have hmc : (67 / 100 ≤ metadataCompleteness req) ↔
      (pyStrip req.recruiter_email ≠ "" ∧ pyStrip req.company_url ≠ "" ∧
       pyStrip req.platform_source ≠ "") := by
    unfold metadataCompleteness
    by_cases h1 : pyStrip req.recruiter_email = "" <;>
      by_cases h2 : pyStrip req.company_url = "" <;>
        by_cases h3 : pyStrip req.platform_source = "" <;>
          simp [h1, h2, h3] <;> norm_num
  simp only [confidenceLevel]
  split_ifs with h1 h2
  · obtain ⟨ha, hb, hc, hd⟩ := h1
    exact iff_of_true rfl
      ⟨(hmc.mp ha).1, (hmc.mp ha).2.1, (hmc.mp ha).2.2, hb, by tauto⟩
  · refine iff_of_false (by decide) ?_
    rintro ⟨he, hu, hp, hcf, hcons⟩
    exact h1 ⟨hmc.mpr ⟨he, hu, hp⟩, hcf, by tauto, by tauto⟩
  · refine iff_of_false (by decide) ?_
    rintro ⟨he, hu, hp, hcf, hcons⟩
    exact h1 ⟨hmc.mpr ⟨he, hu, hp⟩, hcf, by tauto, by tauto⟩

/-- Claim C4: with more than 5 text-analysis findings the category score is
the maximum `severity × confidence` over the top 3 of the stable descending
sort - equivalently over all findings - and the category confidence is the
top-3 maximum confidence; otherwise (fewer findings or another category) the
category score is the confidence-weighted severity average and the confidence
is `min(1, Σconf / count)`. -/
theorem text_category_top3_rule (cat : RiskCategory) (fs : List RiskFactor)
    (hconf : ∀ f ∈ fs, 0 ≤ f.confidence) :
    (cat = RiskCategory.textAnalysis → 5 < fs.length →
      ((categoryScoreConf cat fs).1 = pyMax (((sortDesc fs).take 3).map keyOf) ∧
       pyMax (((sortDesc fs).take 3).map keyOf) = pyMax (fs.map keyOf) ∧
       (categoryScoreConf cat fs).2 = pyMax (((sortDesc fs).take 3).map (fun f => f.confidence)))) ∧
    (¬(cat = RiskCategory.textAnalysis ∧ 5 < fs.length) → fs ≠ [] → 0 < sumConf fs →
      ((categoryScoreConf cat fs).1 = sumKey fs / sumConf fs ∧
       (categoryScoreConf cat fs).2 = min 1 (sumConf fs / (fs.length : ℚ)))) := by
  constructor
  · intro hcat hlen
    have hne : ¬fs.isEmpty := by
      cases fs with
      | nil => simp at hlen
      | cons a t => simp
    unfold categoryScoreConf
    rw [if_neg hne, if_pos ⟨hcat, hlen⟩]
    refine ⟨rfl, ?_, rfl⟩
    have hperm : List.Perm (sortDesc fs) fs := List.perm_insertionSort byKeyDesc fs
    have hsorted : List.Sorted byKeyDesc (sortDesc fs) := List.sorted_insertionSort byKeyDesc fs
    cases hs : sortDesc fs with
    | nil =>
      exfalso
      have := hperm.length_eq
      rw [hs] at this
      simp at this
      omega
    | cons a t =>
      rw [hs] at hsorted hperm
      have hdom : ∀ f ∈ t, keyOf f ≤ keyOf a := fun f hf =>
        List.rel_of_sorted_cons hsorted f hf
      have hkey0 : ∀ f ∈ fs, 0 ≤ keyOf f := fun f hf =>
        mul_nonneg (Nat.cast_nonneg _) (hconf f hf)
      rw [List.take_succ_cons, List.map_cons]
      rw [pyMax_cons_of_le (by
        intro x hx
        obtain ⟨f, hf, rfl⟩ := List.mem_map.mp hx
        exact hdom f (List.take_subset _ _ hf))]
      rw [pyMax_perm ((hperm.symm).map keyOf) (by
        intro x hx
        obtain ⟨f, hf, rfl⟩ := List.mem_map.mp hx
        exact hkey0 f hf)]
      rw [List.map_cons, pyMax_cons_of_le (by
        intro x hx
        obtain ⟨f, hf, rfl⟩ := List.mem_map.mp hx
        exact hdom f hf)]
  · intro hno hne hpos
    unfold categoryScoreConf
    rw [if_neg (by simpa using hne), if_neg hno, if_pos hpos]
    exact ⟨rfl, rfl⟩

/-- Witness for C4: six equal-weight text findings take the top-3 branch, and
two email findings take the weighted-average branch. -/
theorem text_category_top3_rule_check :
    (categoryScoreConf RiskCategory.textAnalysis
        [⟨RiskCategory.textAnalysis, 10, "a", 1⟩, ⟨RiskCategory.textAnalysis, 20, "b", 1⟩,
         ⟨RiskCategory.textAnalysis, 30, "c", 1⟩, ⟨RiskCategory.textAnalysis, 40, "d", 1⟩,
         ⟨RiskCategory.textAnalysis, 50, "e", 1⟩, ⟨RiskCategory.textAnalysis, 60, "f", 1⟩]).1 =
      pyMax ([⟨RiskCategory.textAnalysis, 10, "a", 1⟩, ⟨RiskCategory.textAnalysis, 20, "b", 1⟩,
         ⟨RiskCategory.textAnalysis, 30, "c", 1⟩, ⟨RiskCategory.textAnalysis, 40, "d", 1⟩,
         ⟨RiskCategory.textAnalysis, 50, "e", 1⟩,
         (⟨RiskCategory.textAnalysis, 60, "f", 1⟩ : RiskFactor)].map keyOf) ∧
    (categoryScoreConf RiskCategory.emailValidation
        [⟨RiskCategory.emailValidation, 80, "g", 1⟩]).1 =
      sumKey [⟨RiskCategory.emailValidation, 80, "g", 1⟩] /
        sumConf [⟨RiskCategory.emailValidation, 80, "g", 1⟩] := by
  constructor
  · have h := (text_category_top3_rule RiskCategory.textAnalysis
      [⟨RiskCategory.textAnalysis, 10, "a", 1⟩, ⟨RiskCategory.textAnalysis, 20, "b", 1⟩,
       ⟨RiskCategory.textAnalysis, 30, "c", 1⟩, ⟨RiskCategory.textAnalysis, 40, "d", 1⟩,
       ⟨RiskCategory.textAnalysis, 50, "e", 1⟩, ⟨RiskCategory.textAnalysis, 60, "f", 1⟩]
      (by intro f hf; fin_cases hf <;> norm_num)).1 rfl (by norm_num)
    rw [h.1, h.2.1]
  · have h := (text_category_top3_rule RiskCategory.emailValidation
      [⟨RiskCategory.emailValidation, 80, "g", 1⟩]
      (by intro f hf; fin_cases hf <;> norm_num)).2
      (by rintro ⟨h, -⟩; exact RiskCategory.noConfusion h)
      (by simp)
      (by norm_num [sumConf])
    exact h.1

/-- The flag loop never grows past 8 entries. -/
theorem flagsLoop_length_le {fs : List RiskFactor} {acc : List String}
    (h : acc.length ≤ 7) : (flagsLoop fs acc).length ≤ 8 := by
  induction fs generalizing acc with
  | nil => exact le_trans h (by norm_num)
  | cons f rest ih =>
    unfold flagsLoop
    split_ifs with hmem hlen
    · exact ih h
    · simp only [List.length_append, List.length_singleton]
      omega
    · apply ih
      simp only [List.length_append, List.length_singleton] at hlen ⊢
      omega

/-- The flag loop preserves distinctness. -/
theorem flagsLoop_nodup {fs : List RiskFactor} {acc : List String}
    (h : acc.Nodup) : (flagsLoop fs acc).Nodup := by
  induction fs generalizing acc with
  | nil => exact h
  | cons f rest ih =>
    unfold flagsLoop
    split_ifs with hmem hlen
    · exact ih h
    · exact h.append (List.nodup_singleton _) (List.disjoint_singleton.mpr hmem)
    · exact ih (h.append (List.nodup_singleton _) (List.disjoint_singleton.mpr hmem))

/-- The flag loop appends the descriptions of a sublist of its input. -/
theorem flagsLoop_sublist (fs : List RiskFactor) (acc : List String) :
    ∃ gs : List RiskFactor, gs.Sublist fs ∧
      flagsLoop fs acc = acc ++ gs.map (fun f => f.description) := by
  induction fs generalizing acc with
  | nil => exact ⟨[], List.Sublist.refl [], by simp [flagsLoop]⟩
  | cons f rest ih =>
    unfold flagsLoop
    split_ifs with hmem hlen
    · obtain ⟨gs, hsub, heq⟩ := ih acc
      exact ⟨gs, hsub.cons f, heq⟩
    · exact ⟨[f], (List.nil_sublist rest).cons₂ f, by simp⟩
    · obtain ⟨gs, hsub, heq⟩ := ih (acc ++ [f.description])
      exact ⟨f :: gs, hsub.cons₂ f, by rw [heq, List.map_cons, List.append_assoc,
        List.singleton_append]⟩

theorem categoryScoreConf_nil (cat : RiskCategory) : categoryScoreConf cat [] = (0, 0) := rfl

set_option maxHeartbeats 2000000 in
/-- Core rational inequality behind the telegram-vs-LinkedIn comparison.
`ct, xt / ce, xe / cu, xu` are the text / email / url category confidences
and scores, `b` the professionalism offset.  The left side is the LinkedIn
variant's offset base score (platform category empty, multiplier 1); the
right side is the telegram variant's, whose platform category contributes
score 55 at effective weight `0.08 × 0.8 = 8/125` and whose findings trigger
the 1.3 messaging-apps multiplier. -/
theorem telegram_core_ineq (ct xt ce xe cu xu b : ℚ)
    (hb0 : 0 ≤ b) (hb25 : b ≤ 25)
    (htext : (ct = 0 ∧ xt = 0) ∨ 3 / 5 ≤ ct)
    (he : metadataEnvelope (12 / 100) (xe, ce))
    (hu : metadataEnvelope (10 / 100) (xu, cu)) :
    max 0 ((if 0 < 70 / 100 * ct + 12 / 100 * ce + 10 / 100 * cu then
        (xt * (70 / 100 * ct) + xe * (12 / 100 * ce) + xu * (10 / 100 * cu)) /
          (70 / 100 * ct + 12 / 100 * ce + 10 / 100 * cu)
      else 0) - b) ≤
    max 0 ((xt * (70 / 100 * ct) + xe * (12 / 100 * ce) + xu * (10 / 100 * cu) + 88 / 25) /
        (70 / 100 * ct + 12 / 100 * ce + 10 / 100 * cu + 8 / 125) - b) * (13 / 10) := by
  have hce0 : 0 ≤ ce := by
    rcases he with ⟨-, h⟩ | ⟨-, -, h, -, -⟩
    · exact le_of_eq h.symm
    · exact h
  have hcu0 : 0 ≤ cu := by
    rcases hu with ⟨-, h⟩ | ⟨-, -, h, -, -⟩
    · exact le_of_eq h.symm
    · exact h
  have hct0 : 0 ≤ ct := by
    rcases htext with ⟨h, -⟩ | h
    · exact le_of_eq h.symm
    · linarith
  have hDe : 0 ≤ 12 / 100 * ce * (3 / 10 * xe - 15 / 2) := by
    rcases he with ⟨-, h⟩ | ⟨h25, -, hc0, -, -⟩
    · have h' : ce = 0 := h
      rw [h']
      norm_num
    · exact mul_nonneg (mul_nonneg (by norm_num) hc0) (by linarith)
  have hDu : 0 ≤ 10 / 100 * cu * (3 / 10 * xu - 15 / 2) := by
    rcases hu with ⟨-, h⟩ | ⟨h25, -, hc0, -, -⟩
    · have h' : cu = 0 := h
      rw [h']
      norm_num
    · exact mul_nonneg (mul_nonneg (by norm_num) hc0) (by linarith)
  obtain ⟨W, hW_eq⟩ : ∃ w : ℚ, w = 70 / 100 * ct + 12 / 100 * ce + 10 / 100 * cu := ⟨_, rfl⟩
  obtain ⟨P, hP_eq⟩ : ∃ p : ℚ,
      p = xt * (70 / 100 * ct) + xe * (12 / 100 * ce) + xu * (10 / 100 * cu) := ⟨_, rfl⟩
  rw [← hW_eq, ← hP_eq]
  have hW0 : 0 ≤ W := by
    rw [hW_eq]
    have h1 : 0 ≤ 70 / 100 * ct := by linarith
    have h2 : 0 ≤ 12 / 100 * ce := by linarith
    have h3 : 0 ≤ 10 / 100 * cu := by linarith
    linarith
  have hden : (0 : ℚ) < W + 8 / 125 := by linarith
  by_cases hyz : (if 0 < W then P / W else 0) ≤ b
  · rw [max_eq_left (by linarith : (if 0 < W then P / W else 0) - b ≤ 0)]
    exact mul_nonneg (le_max_left 0 _) (by norm_num)
  · push_neg at hyz
    have hW : 0 < W := by
      by_contra hW'
      rw [if_neg hW'] at hyz
      linarith
    rw [if_pos hW] at hyz ⊢
    have hPbW : b * W < P := (lt_div_iff hW).mp hyz
    have hBTb : b < (P + 88 / 25) / (W + 8 / 125) := by
      rw [lt_div_iff hden]
      nlinarith [hPbW, hb25]
    rw [max_eq_right (by linarith : (0 : ℚ) ≤ P / W - b),
      max_eq_right (by linarith : (0 : ℚ) ≤ (P + 88 / 25) / (W + 8 / 125) - b)]
    have h1 : P / W - b = (P - b * W) / W := by
      rw [eq_div_iff hW.ne', sub_mul, div_mul_cancel₀ _ hW.ne']
    have h2 : (P + 88 / 25) / (W + 8 / 125) - b =
        (P + 88 / 25 - b * (W + 8 / 125)) / (W + 8 / 125) := by
      rw [eq_div_iff hden.ne', sub_mul, div_mul_cancel₀ _ hden.ne']
    rw [h1, h2, div_mul_eq_mul_div, div_le_div_iff hW hden]
    -- goal: (P - b*W) * (W + 8/125) ≤ (P + 88/25 - b*(W + 8/125)) * (13/10) * W
    have hb25W : b * W ≤ 25 * W := mul_le_mul_of_nonneg_right hb25 hW.le
    have hb25W2 : b * (W * W) ≤ 25 * (W * W) :=
      mul_le_mul_of_nonneg_right hb25 (mul_nonneg hW.le hW.le)
    rcases le_or_lt P (55 * W) with hx55 | hx55
    · nlinarith [mul_nonneg hW.le (sub_nonneg.mpr hPbW.le)]
    · rcases le_or_lt (16 / 75 : ℚ) W with hWbig | hWsmall
      · have hcoef : (0 : ℚ) ≤ 3 / 10 * W - 8 / 125 := by linarith
        nlinarith [mul_le_mul_of_nonneg_left hx55.le hcoef,
          mul_nonneg hW.le (sub_nonneg.mpr hPbW.le)]
      · -- W < 16/75 forces the text category to be empty
        rcases htext with ⟨hc0, hx0⟩ | hc6
        swap
        · exfalso
          rw [hW_eq] at hWsmall
          linarith
        · subst hc0
          subst hx0
          clear hyz hBTb h1 h2 hWsmall
          have hbridge : 3 / 10 * (P * W) =
              12 / 100 * ce * (3 / 10 * xe - 15 / 2) * W +
              10 / 100 * cu * (3 / 10 * xu - 15 / 2) * W + 15 / 2 * (W * W) := by
            rw [hW_eq, hP_eq]
            ring
          have hf3 : 0 ≤ W * W * (25 - b) :=
            mul_nonneg (mul_nonneg hW0 hW0) (by linarith)
          have hf4 : 0 ≤ W * (25 - b) := mul_nonneg hW0 (by linarith)
          rcases le_total xu xe with hmax | hmax
          · -- email dominates
            rcases he with ⟨hxe0, hce0h⟩ | ⟨h25, h90, hec0, hec1, hiq⟩
            · exfalso
              rw [hP_eq] at hx55
              have hxe' : xe = 0 := hxe0
              have hce' : ce = 0 := hce0h
              nlinarith [mul_nonneg hcu0 (neg_nonneg.mpr (by linarith : xu ≤ 0)), hW]
            · have hPxeW : P ≤ xe * W := by
                rw [hW_eq, hP_eq]
                nlinarith [mul_nonneg hcu0 (sub_nonneg.mpr hmax)]
              rcases le_or_lt xe 64 with h64 | h64
              · have hf5 : 0 ≤ 64 * W - P := by
                  nlinarith [mul_le_mul_of_nonneg_right h64 hW0, hPxeW]
                nlinarith [hbridge, mul_nonneg hW0 hDe, mul_nonneg hW0 hDu, hf3, hf4, hf5]
              · have hiqv := hiq (by linarith)
                have hg1 : 0 ≤ (12 / 100 * ce * (3 / 10 * xe - 15 / 2) -
                    (8 / 125 * xe - 512 / 125)) * W :=
                  mul_nonneg (sub_nonneg.mpr hiqv) hW0
                have hg5 : 0 ≤ xe * W - P := sub_nonneg.mpr hPxeW
                nlinarith [hbridge, hg1, mul_nonneg hW0 hDu, hf3, hf4, hg5]
          · -- url dominates
            rcases hu with ⟨hxu0, hcu0h⟩ | ⟨h25, h90, huc0, huc1, hiq⟩
            · exfalso
              rw [hP_eq] at hx55
              have hxu' : xu = 0 := hxu0
              have hcu' : cu = 0 := hcu0h
              nlinarith [mul_nonneg hce0 (neg_nonneg.mpr (by linarith : xe ≤ 0)), hW]
            · have hPxuW : P ≤ xu * W := by
                rw [hW_eq, hP_eq]
                nlinarith [mul_nonneg hce0 (sub_nonneg.mpr hmax)]
              rcases le_or_lt xu 64 with h64 | h64
              · have hf5 : 0 ≤ 64 * W - P := by
                  nlinarith [mul_le_mul_of_nonneg_right h64 hW0, hPxuW]
                nlinarith [hbridge, mul_nonneg hW0 hDe, mul_nonneg hW0 hDu, hf3, hf4, hf5]
              · have hiqv := hiq (by linarith)
                have hg1 : 0 ≤ (10 / 100 * cu * (3 / 10 * xu - 15 / 2) -
                    (8 / 125 * xu - 512 / 125)) * W :=
                  mul_nonneg (sub_nonneg.mpr hiqv) hW0
                have hg5 : 0 ≤ xu * W - P := sub_nonneg.mpr hPxuW
                nlinarith [hbridge, hg1, mul_nonneg hW0 hDe, hf3, hf4, hg5]

theorem riskScore_eq (r : AllResults) (jt : String) :
    riskScore r jt = max 0 (min 100 (pyRound
      (max 0 (baseScoreRaw r - professionalBonus jt) * platformMultiplier r.platform))) := rfl

/-- `platform_source = "telegram"`: normalized to `telegram.org`
(credibility 55), producing the lower-credibility factor and the
messaging-apps risk-pattern factor. -/
theorem telegram_platform_factors : (platformAnalyze "telegram").risk_factors =
    [⟨RiskCategory.platformCredibility, 50, "Platform has lower credibility rating", 8 / 10⟩,
     ⟨RiskCategory.platformCredibility, 60, "Messaging apps are commonly used for scams", 8 / 10⟩] :=
  rfl

/-- `platform_source = "LinkedIn"`: normalized to `linkedin.com`
(credibility 95), producing no risk factors. -/
theorem linkedin_platform_factors : (platformAnalyze "LinkedIn").risk_factors = [] := rfl

theorem filter_cat_self (fs : List RiskFactor) (cat : RiskCategory)
    (h : ∀ f ∈ fs, f.category = cat) :
    List.filter (fun f => f.category = cat) fs = fs :=
  List.filter_eq_self.mpr fun a ha => by simp [h a ha]

theorem filter_cat_nil (fs : List RiskFactor) (cat cat2 : RiskCategory)
    (h : ∀ f ∈ fs, f.category = cat2) (hne : cat2 ≠ cat) :
    List.filter (fun f => f.category = cat) fs = [] :=
  List.filter_eq_nil.mpr fun a ha => by simp [h a ha, hne]

/-- When each analyzer tags its findings with its own category (the contract
the analyzers satisfy), the aggregator's per-category pools are exactly the
per-analyzer finding lists. -/
theorem catFactors_of_tagged (tR eR uR pR : AnalysisResult)
    (ht : ∀ f ∈ tR.risk_factors, f.category = RiskCategory.textAnalysis)
    (heR : ∀ f ∈ eR.risk_factors, f.category = RiskCategory.emailValidation)
    (huR : ∀ f ∈ uR.risk_factors, f.category = RiskCategory.urlValidation)
    (hpR : ∀ f ∈ pR.risk_factors, f.category = RiskCategory.platformCredibility) :
    catFactors ⟨tR, eR, uR, pR⟩ RiskCategory.textAnalysis = tR.risk_factors ∧
    catFactors ⟨tR, eR, uR, pR⟩ RiskCategory.emailValidation = eR.risk_factors ∧
    catFactors ⟨tR, eR, uR, pR⟩ RiskCategory.urlValidation = uR.risk_factors ∧
    catFactors ⟨tR, eR, uR, pR⟩ RiskCategory.platformCredibility = pR.risk_factors ∧
    catFactors ⟨tR, eR, uR, pR⟩ RiskCategory.general = [] := by
  unfold catFactors allFactors
  simp only [List.filter_append]
  refine ⟨?_, ?_, ?_, ?_, ?_⟩
  · rw [filter_cat_self _ _ ht, filter_cat_nil _ _ _ heR (by decide),
      filter_cat_nil _ _ _ huR (by decide), filter_cat_nil _ _ _ hpR (by decide)]
    simp
  · rw [filter_cat_self _ _ heR, filter_cat_nil _ _ _ ht (by decide),
      filter_cat_nil _ _ _ huR (by decide), filter_cat_nil _ _ _ hpR (by decide)]
    simp
  · rw [filter_cat_self _ _ huR, filter_cat_nil _ _ _ ht (by decide),
      filter_cat_nil _ _ _ heR (by decide), filter_cat_nil _ _ _ hpR (by decide)]
    simp
  · rw [filter_cat_self _ _ hpR, filter_cat_nil _ _ _ ht (by decide),
      filter_cat_nil _ _ _ heR (by decide), filter_cat_nil _ _ _ huR (by decide)]
    simp
  · rw [filter_cat_nil _ _ _ ht (by decide), filter_cat_nil _ _ _ heR (by decide),
      filter_cat_nil _ _ _ huR (by decide), filter_cat_nil _ _ _ hpR (by decide)]
    simp

theorem totalWeight_formula (tR eR uR pR : AnalysisResult)
    (ht : ∀ f ∈ tR.risk_factors, f.category = RiskCategory.textAnalysis)
    (heR : ∀ f ∈ eR.risk_factors, f.category = RiskCategory.emailValidation)
    (huR : ∀ f ∈ uR.risk_factors, f.category = RiskCategory.urlValidation)
    (hpR : ∀ f ∈ pR.risk_factors, f.category = RiskCategory.platformCredibility) :
    totalWeight ⟨tR, eR, uR, pR⟩ =
      70 / 100 * (categoryScoreConf RiskCategory.textAnalysis tR.risk_factors).2 +
      12 / 100 * (categoryScoreConf RiskCategory.emailValidation eR.risk_factors).2 +
      10 / 100 * (categoryScoreConf RiskCategory.urlValidation uR.risk_factors).2 +
      8 / 100 * (categoryScoreConf RiskCategory.platformCredibility pR.risk_factors).2 := by
  obtain ⟨h1, h2, h3, h4, -⟩ := catFactors_of_tagged tR eR uR pR ht heR huR hpR
  unfold totalWeight categoryWeights catConf
  simp only [List.map_cons, List.map_nil, List.sum_cons, List.sum_nil, add_zero]
  rw [h1, h2, h3, h4]
  ring

theorem weightedScore_formula (tR eR uR pR : AnalysisResult)
    (ht : ∀ f ∈ tR.risk_factors, f.category = RiskCategory.textAnalysis)
    (heR : ∀ f ∈ eR.risk_factors, f.category = RiskCategory.emailValidation)
    (huR : ∀ f ∈ uR.risk_factors, f.category = RiskCategory.urlValidation)
    (hpR : ∀ f ∈ pR.risk_factors, f.category = RiskCategory.platformCredibility) :
    weightedScoreSum ⟨tR, eR, uR, pR⟩ =
      (categoryScoreConf RiskCategory.textAnalysis tR.risk_factors).1 *
        (70 / 100 * (categoryScoreConf RiskCategory.textAnalysis tR.risk_factors).2) +
      (categoryScoreConf RiskCategory.emailValidation eR.risk_factors).1 *
        (12 / 100 * (categoryScoreConf RiskCategory.emailValidation eR.risk_factors).2) +
      (categoryScoreConf RiskCategory.urlValidation uR.risk_factors).1 *
        (10 / 100 * (categoryScoreConf RiskCategory.urlValidation uR.risk_factors).2) +
      (categoryScoreConf RiskCategory.platformCredibility pR.risk_factors).1 *
        (8 / 100 * (categoryScoreConf RiskCategory.platformCredibility pR.risk_factors).2) := by
  obtain ⟨h1, h2, h3, h4, -⟩ := catFactors_of_tagged tR eR uR pR ht heR huR hpR
  unfold weightedScoreSum categoryWeights catScore catConf
  simp only [List.map_cons, List.map_nil, List.sum_cons, List.sum_nil, add_zero]
  rw [h1, h2, h3, h4]
  ring

/-- The two telegram platform findings average to score 55 at confidence
0.8. -/
theorem telegram_platform_catsc :
    categoryScoreConf RiskCategory.platformCredibility
      [⟨RiskCategory.platformCredibility, 50, "Platform has lower credibility rating", 8 / 10⟩,
       ⟨RiskCategory.platformCredibility, 60, "Messaging apps are commonly used for scams", 8 / 10⟩] =
    (55, 8 / 10) := by
  norm_num [categoryScoreConf, sumKey, sumConf, keyOf]

/-- "Messaging apps are commonly used for scams" triggers the 1.3 factor and
"Platform has lower credibility rating" the 1.1 factor; the loop keeps 1.3. -/
theorem telegram_multiplier : platformMultiplier (platformAnalyze "telegram") = 13 / 10 := by
  have h : platformMultiplier (platformAnalyze "telegram") =
      max (max 1 (11 / 10)) (13 / 10) := rfl
  rw [h, max_eq_right (by norm_num : (1 : ℚ) ≤ 11 / 10),
    max_eq_right (by norm_num : (11 : ℚ) / 10 ≤ 13 / 10)]

theorem linkedin_multiplier : platformMultiplier (platformAnalyze "LinkedIn") = 1 := rfl

/-- Claim C7: with identical job text, email and url, the final risk score of
the request with `platform_source = "telegram"` is at least that of the
request with `platform_source = "LinkedIn"`.  The text, email and url results
are quantified over every output their analyzers can produce; the hypotheses
record the analyzer invariants this rests on: findings are tagged with their
analyzer's category, a non-empty text category carries confidence ≥ 0.6
(every text finding's confidence is ≥ 0.6), and the email/url category
outputs lie in `metadataEnvelope` (severities in [40, 90], confidences in
[0.6, 1], with a lone severity-90 finding carrying confidence ≥ 0.9). -/
theorem telegram_score_ge_linkedin_score (textR emailR urlR : AnalysisResult) (jobText : String)
    (htagT : ∀ f ∈ textR.risk_factors, f.category = RiskCategory.textAnalysis)
    (htagE : ∀ f ∈ emailR.risk_factors, f.category = RiskCategory.emailValidation)
    (htagU : ∀ f ∈ urlR.risk_factors, f.category = RiskCategory.urlValidation)
    (htext : textR.risk_factors = [] ∨
      3 / 5 ≤ (categoryScoreConf RiskCategory.textAnalysis textR.risk_factors).2)
    (he : metadataEnvelope (12 / 100)
      (categoryScoreConf RiskCategory.emailValidation emailR.risk_factors))
    (hu : metadataEnvelope (10 / 100)
      (categoryScoreConf RiskCategory.urlValidation urlR.risk_factors)) :
    riskScore ⟨textR, emailR, urlR, platformAnalyze "LinkedIn"⟩ jobText ≤
      riskScore ⟨textR, emailR, urlR, platformAnalyze "telegram"⟩ jobText := by
  have htagPL : ∀ f ∈ (platformAnalyze "LinkedIn").risk_factors,
      f.category = RiskCategory.platformCredibility := by
    rw [linkedin_platform_factors]
    intro f hf
    exact absurd hf (List.not_mem_nil f)
  have htagPT : ∀ f ∈ (platformAnalyze "telegram").risk_factors,
      f.category = RiskCategory.platformCredibility := by
    rw [telegram_platform_factors]
    intro f hf
    simp only [List.mem_cons, List.not_mem_nil, or_false] at hf
    rcases hf with rfl | rfl <;> rfl
  have htext' : ((categoryScoreConf RiskCategory.textAnalysis textR.risk_factors).2 = 0 ∧
      (categoryScoreConf RiskCategory.textAnalysis textR.risk_factors).1 = 0) ∨
      3 / 5 ≤ (categoryScoreConf RiskCategory.textAnalysis textR.risk_factors).2 := by
    rcases htext with h | h
    · left
      rw [h, categoryScoreConf_nil]
      exact ⟨rfl, rfl⟩
    · right
      exact h
  have hct0 : 0 ≤ (categoryScoreConf RiskCategory.textAnalysis textR.risk_factors).2 := by
    rcases htext' with ⟨h, -⟩ | h
    · exact le_of_eq h.symm
    · linarith
  have hce0 : 0 ≤ (categoryScoreConf RiskCategory.emailValidation emailR.risk_factors).2 := by
    rcases he with ⟨-, h⟩ | ⟨-, -, h, -, -⟩
    · exact le_of_eq h.symm
    · exact h
  have hcu0 : 0 ≤ (categoryScoreConf RiskCategory.urlValidation urlR.risk_factors).2 := by
    rcases hu with ⟨-, h⟩ | ⟨-, -, h, -, -⟩
    · exact le_of_eq h.symm
    · exact h
  have hb := professionalBonus_range jobText
  -- blend formulas for the two variants
  have hWL := totalWeight_formula textR emailR urlR (platformAnalyze "LinkedIn")
    htagT htagE htagU htagPL
  have hPL := weightedScore_formula textR emailR urlR (platformAnalyze "LinkedIn")
    htagT htagE htagU htagPL
  rw [linkedin_platform_factors, categoryScoreConf_nil] at hWL hPL
  rw [show ((0, 0) : ℚ × ℚ).2 = 0 from rfl, mul_zero, add_zero] at hWL
  rw [show ((0, 0) : ℚ × ℚ).2 = 0 from rfl, show ((0, 0) : ℚ × ℚ).1 = 0 from rfl,
    mul_zero, zero_mul, add_zero] at hPL
  have hWT := totalWeight_formula textR emailR urlR (platformAnalyze "telegram")
    htagT htagE htagU htagPT
  have hPT := weightedScore_formula textR emailR urlR (platformAnalyze "telegram")
    htagT htagE htagU htagPT
  rw [telegram_platform_factors, telegram_platform_catsc] at hWT hPT
  rw [show ((55, 8 / 10) : ℚ × ℚ).2 = 8 / 10 from rfl,
    show (8 : ℚ) / 100 * (8 / 10) = 8 / 125 from by norm_num] at hWT
  rw [show ((55, 8 / 10) : ℚ × ℚ).2 = 8 / 10 from rfl,
    show ((55, 8 / 10) : ℚ × ℚ).1 = 55 from rfl,
    show (55 : ℚ) * (8 / 100 * (8 / 10)) = 88 / 25 from by norm_num] at hPT
  -- reduce to the core inequality
  rw [riskScore_eq, riskScore_eq]
  dsimp only
  rw [linkedin_multiplier, telegram_multiplier, mul_one]
  apply max_le_max le_rfl
  apply min_le_min le_rfl
  apply pyRound_mono
  unfold baseScoreRaw
  rw [hWL, hPL, hWT, hPT]
  have hTpos : (0 : ℚ) <
      70 / 100 * (categoryScoreConf RiskCategory.textAnalysis textR.risk_factors).2 +
      12 / 100 * (categoryScoreConf RiskCategory.emailValidation emailR.risk_factors).2 +
      10 / 100 * (categoryScoreConf RiskCategory.urlValidation urlR.risk_factors).2 +
      8 / 125 := by
    nlinarith [hct0, hce0, hcu0]
  rw [if_pos hTpos]
  have hcore := telegram_core_ineq
    (categoryScoreConf RiskCategory.textAnalysis textR.risk_factors).2
    (categoryScoreConf RiskCategory.textAnalysis textR.risk_factors).1
    (categoryScoreConf RiskCategory.emailValidation emailR.risk_factors).2
    (categoryScoreConf RiskCategory.emailValidation emailR.risk_factors).1
    (categoryScoreConf RiskCategory.urlValidation urlR.risk_factors).2
    (categoryScoreConf RiskCategory.urlValidation urlR.risk_factors).1
    (professionalBonus jobText) hb.1 hb.2 htext' he hu
  convert hcore using 3 <;> ring

/-- Witness for C7 at concrete empty text/email/url results. -/
theorem telegram_score_ge_linkedin_score_check :
    riskScore ⟨⟨[], 1, "t"⟩, ⟨[], 1, "e"⟩, ⟨[], 1, "u"⟩, platformAnalyze "LinkedIn"⟩ "hi" ≤
    riskScore ⟨⟨[], 1, "t"⟩, ⟨[], 1, "e"⟩, ⟨[], 1, "u"⟩, platformAnalyze "telegram"⟩ "hi" :=
  telegram_score_ge_linkedin_score ⟨[], 1, "t"⟩ ⟨[], 1, "e"⟩ ⟨[], 1, "u"⟩ "hi"
    (fun f hf => absurd hf (List.not_mem_nil f))
    (fun f hf => absurd hf (List.not_mem_nil f))
    (fun f hf => absurd hf (List.not_mem_nil f))
    (Or.inl rfl)
    (Or.inl ⟨rfl, rfl⟩)
    (Or.inl ⟨rfl, rfl⟩)

/-- Claim C8: the flags list pools all findings, stably sorts them descending
by `severity × confidence`, deduplicates by description and truncates to 8:
hence it has at most 8 entries, no duplicates, and its entries are the
descriptions of a descending-by-key sublist of the sorted pool. -/
theorem flags_bounded_unique_sorted (r : AllResults) :
    (generateFlags r).length ≤ 8 ∧ (generateFlags r).Nodup ∧
    ∃ gs : List RiskFactor, gs.Sublist (sortDesc (allFactors r)) ∧
      generateFlags r = gs.map (fun f => f.description) ∧
      gs.Pairwise byKeyDesc := by
  refine ⟨flagsLoop_length_le (by norm_num), flagsLoop_nodup List.nodup_nil, ?_⟩
  obtain ⟨gs, hsub, heq⟩ := flagsLoop_sublist (sortDesc (allFactors r)) []
  refine ⟨gs, hsub, by simpa using heq, ?_⟩
  exact (List.sorted_insertionSort byKeyDesc (allFactors r)).sublist hsub

end JobDetector
